import Mathlib

/-!
Shallow embedding of MagmaWM's input-event pipeline
(`src/handlers/input.rs`, `src/state.rs`).

Floating-point coordinates (`f64`) are modelled by `ℚ`; all arithmetic in
the embedded fragment is exact (additions, `min`/`max` comparisons, scaling
by output size), so no rounding behaviour is lost.  Rust panics
(`unwrap`, `todo!`) are modelled by `Option` with `none` for the panic.
-/

namespace Magma

/-- 2D point in logical coordinates, modelling `Point<f64, Logical>`. -/
structure Pt where
  x : ℚ
  y : ℚ
deriving DecidableEq, Repr

instance : Add Pt := ⟨fun p q => ⟨p.x + q.x, p.y + q.y⟩⟩

@[simp] theorem Pt.add_x (p q : Pt) : (p + q).x = p.x + q.x := rfl

@[simp] theorem Pt.add_y (p q : Pt) : (p + q).y = p.y + q.y := rfl

/-- 2D size, modelling `Size<i32, Logical>` (coerced to ℚ where the code
casts `max_x as f64`). -/
structure Sz where
  w : ℚ
  h : ℚ
deriving DecidableEq, Repr

/-- Rectangle with location and size, modelling `Rectangle<i32, Logical>`
as returned by `output_geometry`. -/
structure Rect where
  loc : Pt
  sz : Sz
deriving DecidableEq, Repr

/-- Closed containment of a point in a rectangle (generous reading of
"inside the rectangle": boundary points count as inside). -/
def Rect.containsPt (r : Rect) (p : Pt) : Prop :=
  r.loc.x ≤ p.x ∧ p.x ≤ r.loc.x + r.sz.w ∧ r.loc.y ≤ p.y ∧ p.y ≤ r.loc.y + r.sz.h

instance (r : Rect) (p : Pt) : Decidable (r.containsPt p) := by
  unfold Rect.containsPt; infer_instance

/-- Membership of a point in the origin-anchored box `[0,w] × [0,h]`. -/
def inBox (p : Pt) (s : Sz) : Prop :=
  0 ≤ p.x ∧ p.x ≤ s.w ∧ 0 ≤ p.y ∧ p.y ≤ s.h

instance (p : Pt) (s : Sz) : Decidable (inBox p s) := by
  unfold inBox; infer_instance

/-- Keyboard modifier state, modelling smithay's `ModifiersState` as far
as the binding comparison `binding.modifiers == *modifiers` needs it. -/
structure ModifiersState where
  ctrl : Bool
  alt : Bool
  shift : Bool
  logo : Bool
deriving DecidableEq, Repr

/-- A key symbol (xkb keysym), by its numeric code. -/
abbrev Keysym := Nat

/-- One configured key binding: a modifier set and a key symbol
(the `binding` side of `CONFIG.keybindings`). -/
structure Binding where
  modifiers : ModifiersState
  key : Keysym
deriving DecidableEq, Repr

/-- Compositor actions, modelling `config::Action`. -/
inductive Action where
  | Quit
  | Debug
  | Close
  | Workspace (id : Nat)
  | MoveWindow (id : Nat)
  | MoveAndSwitch (id : Nat)
  | ToggleWindowFloating
  | Spawn (command : String)
  | VTSwitch (id : Nat)
deriving DecidableEq, Repr

/-- Result of the keyboard filter closure, modelling smithay's
`FilterResult`. -/
inductive FilterResult where
  | Intercept (a : Action)
  | Forward
deriving DecidableEq, Repr

/-- Key transition, modelling `KeyState`. -/
inductive KState where
  | Pressed
  | Released
deriving DecidableEq, Repr

/-- The keyboard filter closure of `process_input_event`
(input.rs lines 33-43): walk `CONFIG.keybindings` in order and intercept
on the first binding whose modifiers equal the active modifiers exactly
and whose key is among the event's resolved raw symbols, provided the
event is a press; otherwise forward. -/
def keyboardFilter (keybindings : List (Binding × Action)) (st : KState)
    (modifiers : ModifiersState) (rawSyms : List Keysym) : FilterResult :=
  match keybindings with
  | [] => .Forward
  | (binding, action) :: rest =>
    if st = .Pressed ∧ binding.modifiers = modifiers ∧ binding.key ∈ rawSyms then
      .Intercept action
    else keyboardFilter rest st modifiers rawSyms

/-- The exact-match predicate of one binding entry, as used by the loop. -/
def bindingMatches (modifiers : ModifiersState) (rawSyms : List Keysym)
    (ba : Binding × Action) : Bool :=
  ba.1.modifiers = modifiers ∧ ba.1.key ∈ rawSyms

/-- One window known to the workspace collaborator: an id, its workspace
membership, and its geometry. -/
structure Win where
  id : Nat
  workspace : Nat
  rect : Rect
deriving DecidableEq, Repr

/-- Modelled from the spec: the workspace collaborator (`Workspaces`,
`utils/workspace.rs`, not under src/).  It carries the active workspace
id, the windows with their workspace membership, and the geometry of the
first output bound to the current workspace (`none` when no output is
bound).  Spec: "Workspace service: `output_geometry(output) -> rect`,
`window_under(point) -> (window, point)?`, `activate(workspace_id)`,
`move_window_to_workspace(window, workspace_id)`." -/
structure Workspaces where
  active : Nat
  windows : List Win
  outputGeo : Option Rect
deriving DecidableEq, Repr

/-- Modelled from the spec: `window_under(point)` — "topmost window/layer
geometrically containing the current pointer location", searched among
the windows of the active workspace. -/
def Workspaces.window_under (ws : Workspaces) (pos : Pt) : Option Win :=
  ws.windows.find? (fun w => w.workspace = ws.active ∧ w.rect.containsPt pos)

/-- Modelled from the spec: `activate(workspace_id)` makes `id` the
active workspace. -/
def Workspaces.activate (ws : Workspaces) (id : Nat) : Workspaces :=
  { ws with active := id }

/-- Modelled from the spec: `move_window_to_workspace(window, id)`
reassigns the window's workspace membership to `id` (view does not
switch). -/
def Workspaces.move_window_to_workspace (ws : Workspaces) (window : Win)
    (id : Nat) : Workspaces :=
  { ws with windows :=
      ws.windows.map (fun w =>
        if w.id = window.id then { w with workspace := id } else w) }

/-- Keyboard focus target, modelling `FocusTarget` by the id of the
surface's owner window. -/
structure FocusTarget where
  id : Nat
deriving DecidableEq, Repr

/-- A dispatched scroll frame, modelling the `AxisFrame` built in the
`PointerAxis` arm: optional continuous value, optional discrete step
count, and stop flag, per axis. -/
structure Frame where
  valueH : Option ℚ
  discreteH : Option Int
  stopH : Bool
  valueV : Option ℚ
  discreteV : Option Int
  stopV : Bool
deriving DecidableEq, Repr

/-- Axis source, modelling `AxisSource`. -/
inductive AxisSource where
  | Wheel
  | Finger
  | Continuous
  | WheelTilt
deriving DecidableEq, Repr

/-- A raw pointer-axis event: per-axis optional continuous amount and
optional discrete amount, plus the source. -/
structure AxisEvent where
  amountH : Option ℚ
  amountV : Option ℚ
  amountDiscreteH : Option ℚ
  amountDiscreteV : Option ℚ
  source : AxisSource
deriving DecidableEq, Repr

/-- Truncation of a rational toward zero, modelling Rust's `as i32` cast
of an `f64` discrete amount. -/
def truncQ (q : ℚ) : Int :=
  if 0 ≤ q then q.floor else -((-q).floor)

/-- The compositor state fields the input pipeline reads and writes
(`MagmaState`), together with the observable notifications it emits
(motion locations, scroll frames, close requests, spawned commands). -/
structure MState where
  pointer_location : Pt
  workspaces : Workspaces
  keyboardFocus : Option FocusTarget
  serial : Nat
  loopStopped : Bool
  closeRequests : List Nat
  spawned : List String
  emittedMotions : List Pt
  axisFrames : List Frame
deriving DecidableEq, Repr

/-- `MagmaState::new` as far as the pipeline state is concerned
(state.rs line 86): the pointer location is created at `(0, 0)`; no
notification has been emitted yet. -/
def MState.new (ws : Workspaces) : MState :=
  { pointer_location := ⟨0, 0⟩
    workspaces := ws
    keyboardFocus := none
    serial := 0
    loopStopped := false
    closeRequests := []
    spawned := []
    emittedMotions := []
    axisFrames := [] }

/-- `f64::max` on exact rationals (NaN does not arise in the embedded
fragment). -/
def qmax (a b : ℚ) : ℚ := if a ≤ b then b else a

/-- `f64::min` on exact rationals. -/
def qmin (a b : ℚ) : ℚ := if a ≤ b then a else b

/-- The clamping computation of `clamp_coords`, on the (optional) output
geometry of the current workspace: identity when there is no output;
otherwise clamp each coordinate independently as
`pos.max(0.0).min(size)`. -/
def clampCoords (geoOpt : Option Rect) (pos : Pt) : Pt :=
  match geoOpt with
  | none => pos
  | some geo => ⟨qmin (qmax pos.x 0) geo.sz.w, qmin (qmax pos.y 0) geo.sz.h⟩

/-- `clamp_coords` (input.rs lines 170-186): reads the first output of
the current workspace and clamps against its geometry's size. -/
def MState.clamp_coords (s : MState) (pos : Pt) : Pt :=
  clampCoords s.workspaces.outputGeo pos

/-- Modelled from the spec: `surface_under` (defined outside src/) —
"query 'surface under current pointer location' from the workspace
collaborator"; the found surface's owner is the window under the
pointer. -/
def MState.surface_under (s : MState) : Option (FocusTarget × Pt) :=
  (s.workspaces.window_under s.pointer_location).map
    (fun w => (⟨w.id⟩, w.rect.loc))

/-- `set_input_focus` (input.rs lines 188-192): allocate a fresh serial
and set keyboard focus to the target. -/
def MState.set_input_focus (s : MState) (target : FocusTarget) : MState :=
  { s with keyboardFocus := some target, serial := s.serial + 1 }

/-- `set_input_focus_auto` (input.rs lines 194-199): if a surface is
under the pointer, focus its owner; otherwise do nothing. -/
def MState.set_input_focus_auto (s : MState) : MState :=
  match s.surface_under with
  | some d => s.set_input_focus d.1
  | none => s

/-- Recursion measure for `handle_action`: only `MoveAndSwitch`
re-enters the dispatcher. -/
def Action.rank : Action → Nat
  | .MoveAndSwitch _ => 1
  | _ => 0

/-- `handle_action` (input.rs lines 201-245).  `none` models a panic
(`todo!()` for Debug / ToggleWindowFloating / VTSwitch); every other
arm returns the updated state.  `Spawn` records the launched command
(spawn failure is only logged and does not change state). -/
def MState.handle_action (s : MState) (a : Action) : Option MState :=
  match a with
  | .Quit => some { s with loopStopped := true }
  | .Debug => none
  | .Close =>
    match s.workspaces.window_under s.pointer_location with
    | some d => some { s with closeRequests := s.closeRequests ++ [d.id] }
    | none => some s
  | .Workspace id =>
    some (MState.set_input_focus_auto
      { s with workspaces := s.workspaces.activate id })
  | .MoveWindow id =>
    match s.workspaces.window_under s.pointer_location with
    | some window =>
      some { s with workspaces :=
        s.workspaces.move_window_to_workspace window id }
    | none => some s
  | .MoveAndSwitch id =>
    match s.handle_action (.MoveWindow id) with
    | some s1 => s1.handle_action (.Workspace id)
    | none => none
  | .ToggleWindowFloating => none
  | .Spawn command => some { s with spawned := s.spawned ++ [command] }
  | .VTSwitch _ => none
termination_by a.rank
decreasing_by all_goals simp [Action.rank]

/-- A raw input event, modelling `InputEvent` as far as the handler
reads it.  The keyboard event carries the resolved raw symbols and the
active modifier state with which the seat invokes the filter; the
absolute event carries the device position already normalised to
`[0,1] × [0,1]`, so that `position_transformed(size)` is the
componentwise product with the output size. -/
inductive InputEvent where
  | Keyboard (st : KState) (rawSyms : List Keysym) (modifiers : ModifiersState)
  | PointerMotion (delta : Pt)
  | PointerMotionAbsolute (norm : Pt)
  | PointerButton (button : Nat) (st : KState)
  | PointerAxis (ev : AxisEvent)
  | Other
deriving DecidableEq, Repr

/-- The `PointerAxis` arm's frame construction (input.rs lines 131-164):
per axis prefer the continuous amount, else discrete × 3.0, else 0; a
nonzero amount contributes the value plus the discrete count when
present; a zero amount contributes a stop exactly when the source is
`Finger`. -/
def processAxis (ev : AxisEvent) : Frame :=
  let horizontal_amount := ev.amountH.getD (ev.amountDiscreteH.getD 0 * 3)
  let vertical_amount := ev.amountV.getD (ev.amountDiscreteV.getD 0 * 3)
  let f0 : Frame :=
    { valueH := none, discreteH := none, stopH := false
      valueV := none, discreteV := none, stopV := false }
  let f1 :=
    if horizontal_amount ≠ 0 then
      { f0 with valueH := some horizontal_amount
                discreteH := ev.amountDiscreteH.map truncQ }
    else if ev.source = .Finger then { f0 with stopH := true } else f0
  if vertical_amount ≠ 0 then
    { f1 with valueV := some vertical_amount
              discreteV := ev.amountDiscreteV.map truncQ }
  else if ev.source = .Finger then { f1 with stopV := true } else f1

/-- `process_input_event` (input.rs lines 21-168), parametrised by the
binding table `CONFIG.keybindings`.  `none` models a panic (the
`unwrap` of the missing output in the absolute-motion arm, or a
`todo!()` reached through `handle_action`). -/
def MState.process_input_event (kb : List (Binding × Action)) (s : MState)
    (ev : InputEvent) : Option MState :=
  match ev with
  | .Keyboard st rawSyms modifiers =>
    let s1 : MState := { s with serial := s.serial + 1 }
    match keyboardFilter kb st modifiers rawSyms with
    | .Intercept action => s1.handle_action action
    | .Forward => some s1
  | .PointerMotion delta =>
    let s1 : MState := { s with serial := s.serial + 1 }
    let s2 : MState :=
      { s1 with pointer_location := s1.pointer_location + delta }
    let s3 : MState :=
      { s2 with pointer_location := s2.clamp_coords s2.pointer_location }
    let s4 := s3.set_input_focus_auto
    some { s4 with emittedMotions := s4.emittedMotions ++ [s4.pointer_location] }
  | .PointerMotionAbsolute norm =>
    match s.workspaces.outputGeo with
    | none => none
    | some geo =>
      let pos : Pt := ⟨norm.x * geo.sz.w + geo.loc.x, norm.y * geo.sz.h + geo.loc.y⟩
      let s1 : MState := { s with serial := s.serial + 1 }
      let s2 : MState := { s1 with pointer_location := s1.clamp_coords pos }
      let s3 := s2.set_input_focus_auto
      some { s3 with emittedMotions := s3.emittedMotions ++ [pos] }
  | .PointerButton _ _ =>
    let s1 : MState := { s with serial := s.serial + 1 }
    some s1.set_input_focus_auto
  | .PointerAxis ev =>
    some { s with axisFrames := s.axisFrames ++ [processAxis ev] }
  | .Other => some s

/-- Processing a sequence of input events, stopping at the first panic. -/
def MState.processEvents (kb : List (Binding × Action)) (s : MState) :
    List InputEvent → Option MState
  | [] => some s
  | ev :: evs =>
    match s.process_input_event kb ev with
    | some s1 => s1.processEvents kb evs
    | none => none

/-! Concrete instances used by counterexamples and witnesses. -/

/-- An 800×600 output at the origin. -/
def geo800 : Rect := ⟨⟨0, 0⟩, ⟨800, 600⟩⟩

/-- A current workspace bound to the 800×600 output, with no windows. -/
def ws800 : Workspaces := ⟨1, [], some geo800⟩

/-- Fresh compositor state on the 800×600 output. -/
def s800 : MState := MState.new ws800

/-- The same state with the pointer moved to `(50, 50)`. -/
def s50 : MState := { s800 with pointer_location := ⟨50, 50⟩ }

/-- An 800×600 output whose rectangle is located at `(10, 10)`. -/
def rect10 : Rect := ⟨⟨10, 10⟩, ⟨800, 600⟩⟩

/-- A current workspace bound to the output at `(10, 10)`. -/
def ws10 : Workspaces := ⟨1, [], some rect10⟩

/-- A window with id 7 on workspace 1, covering `[0,100] × [0,100]`. -/
def win7 : Win := ⟨7, 1, ⟨⟨0, 0⟩, ⟨100, 100⟩⟩⟩

/-- A workspace state where `win7` lies under the origin. -/
def wsWin : Workspaces := ⟨1, [win7], some geo800⟩

/-- Fresh compositor state with `win7` under the pointer. -/
def sWin : MState := MState.new wsWin

/-- A sample modifier state (only Ctrl held). -/
def modsC : ModifiersState := ⟨true, false, false, false⟩

/-! Helper lemmas (shared across the development). -/

theorem set_input_focus_auto_pointer (s : MState) :
    s.set_input_focus_auto.pointer_location = s.pointer_location := by
  rcases hsu : s.surface_under with _ | d <;>
    simp [MState.set_input_focus_auto, MState.set_input_focus, hsu]

theorem set_input_focus_auto_workspaces (s : MState) :
    s.set_input_focus_auto.workspaces = s.workspaces := by
  rcases hsu : s.surface_under with _ | d <;>
    simp [MState.set_input_focus_auto, MState.set_input_focus, hsu]

theorem set_input_focus_auto_emitted (s : MState) :
    s.set_input_focus_auto.emittedMotions = s.emittedMotions := by
  rcases hsu : s.surface_under with _ | d <;>
    simp [MState.set_input_focus_auto, MState.set_input_focus, hsu]

/-- One relative-motion event: it always succeeds, stores the clamped
sum, and leaves the workspace data untouched. -/
theorem pointerMotion_step (kb : List (Binding × Action)) (s : MState) (d : Pt) :
    ∃ s', s.process_input_event kb (.PointerMotion d) = some s'
      ∧ s'.pointer_location = clampCoords s.workspaces.outputGeo (s.pointer_location + d)
      ∧ s'.workspaces = s.workspaces := by
  refine ⟨_, rfl, ?_, ?_⟩ <;>
    simp [MState.process_input_event, MState.clamp_coords,
      set_input_focus_auto_pointer, set_input_focus_auto_workspaces]

/-- A sequence of relative-motion events folds the clamp-after-each-step
function over the deltas. -/
theorem processEvents_motions (kb : List (Binding × Action)) (s : MState)
    (deltas : List Pt) :
    ∃ s', s.processEvents kb (deltas.map .PointerMotion) = some s'
      ∧ s'.pointer_location =
          deltas.foldl (fun p d => clampCoords s.workspaces.outputGeo (p + d))
            s.pointer_location
      ∧ s'.workspaces = s.workspaces := by
  induction deltas generalizing s with
  | nil => exact ⟨s, rfl, rfl, rfl⟩
  | cons d ds ih =>
    obtain ⟨s1, h1, hp, hw⟩ := pointerMotion_step kb s d
    obtain ⟨s', h', hp', hw'⟩ := ih s1
    rw [hw] at hp' hw'
    rw [hp] at hp'
    refine ⟨s', ?_, ?_, hw'⟩
    · simp [MState.processEvents, h1, h']
    · rw [List.foldl_cons]
      exact hp'

theorem qmax_eq_max (a b : ℚ) : qmax a b = max a b := by
  unfold qmax
  rcases le_total a b with h | h
  · rw [if_pos h, max_eq_right h]
  · by_cases h' : a ≤ b
    · rw [if_pos h', max_eq_right h']
    · rw [if_neg h', max_eq_left h]

theorem qmin_eq_min (a b : ℚ) : qmin a b = min a b := by
  unfold qmin
  rcases le_total a b with h | h
  · rw [if_pos h, min_eq_left h]
  · by_cases h' : a ≤ b
    · rw [if_pos h', min_eq_left h']
    · rw [if_neg h', min_eq_right h]

/-- The clamped point lies in the origin-anchored box of the output size
(for nonnegative sizes). -/
theorem inBox_clampCoords (geo : Rect) (p : Pt)
    (hw : 0 ≤ geo.sz.w) (hh : 0 ≤ geo.sz.h) :
    inBox (clampCoords (some geo) p) geo.sz := by
  simp only [clampCoords, qmax_eq_max, qmin_eq_min]
  exact ⟨le_min (le_max_right _ _) hw, min_le_right _ _,
    le_min (le_max_right _ _) hh, min_le_right _ _⟩

theorem min_max_clamp_eq_self {x w : ℚ} (hw : 0 ≤ w) :
    min (max x 0) w = x ↔ 0 ≤ x ∧ x ≤ w := by
  constructor
  · intro h
    exact ⟨h ▸ le_min (le_max_right _ _) hw, h ▸ min_le_right _ _⟩
  · rintro ⟨h0, h1⟩
    rw [max_eq_left h0, min_eq_left h1]

/-- Clamping fixes exactly the points of the origin-anchored box (for
nonnegative sizes). -/
theorem clampCoords_eq_self (geo : Rect) (p : Pt)
    (hw : 0 ≤ geo.sz.w) (hh : 0 ≤ geo.sz.h) :
    clampCoords (some geo) p = p ↔ inBox p geo.sz := by
  obtain ⟨px, py⟩ := p
  simp only [clampCoords, inBox, Pt.mk.injEq, qmax_eq_max, qmin_eq_min]
  rw [min_max_clamp_eq_self hw, min_max_clamp_eq_self hh]
  tauto

/-- One absolute-motion event with an output bound: it stores the
clamped transformed position but emits the unclamped one. -/
theorem absoluteMotion_step (kb : List (Binding × Action)) (s : MState)
    (geo : Rect) (hgeo : s.workspaces.outputGeo = some geo) (norm : Pt) :
    ∃ s', s.process_input_event kb (.PointerMotionAbsolute norm) = some s'
      ∧ s'.pointer_location =
          clampCoords (some geo)
            ⟨norm.x * geo.sz.w + geo.loc.x, norm.y * geo.sz.h + geo.loc.y⟩
      ∧ s'.emittedMotions = s.emittedMotions ++
          [⟨norm.x * geo.sz.w + geo.loc.x, norm.y * geo.sz.h + geo.loc.y⟩]
      ∧ s'.workspaces = s.workspaces := by
  simp only [MState.process_input_event, hgeo]
  refine ⟨_, rfl, ?_, ?_, ?_⟩
  · simp [MState.clamp_coords, hgeo,
      set_input_focus_auto_pointer, set_input_focus_auto_workspaces]
  · simp [set_input_focus_auto_emitted]
  · simp [set_input_focus_auto_workspaces]

/-- On a press the filter is first-match search of the binding table by
the exact-match predicate. -/
theorem keyboardFilter_pressed_find (table : List (Binding × Action))
    (modifiers : ModifiersState) (rawSyms : List Keysym) :
    keyboardFilter table .Pressed modifiers rawSyms =
      ((table.find? (bindingMatches modifiers rawSyms)).map
        (fun ba => FilterResult.Intercept ba.2)).getD .Forward := by
  induction table with
  | nil => rfl
  | cons ba rest ih =>
    obtain ⟨b, a⟩ := ba
    by_cases h : b.modifiers = modifiers ∧ b.key ∈ rawSyms
    · have hb : bindingMatches modifiers rawSyms (b, a) = true :=
        decide_eq_true h
      simp [keyboardFilter, List.find?, h, hb]
    · have hb : bindingMatches modifiers rawSyms (b, a) = false :=
        decide_eq_false h
      simp [keyboardFilter, List.find?, h, hb, ih]

/-- On a release the filter forwards, whatever the table. -/
theorem keyboardFilter_released (table : List (Binding × Action))
    (modifiers : ModifiersState) (rawSyms : List Keysym) :
    keyboardFilter table .Released modifiers rawSyms = .Forward := by
  induction table with
  | nil => rfl
  | cons ba rest ih =>
    obtain ⟨b, a⟩ := ba
    simp [keyboardFilter, ih]

/-! The claims. -/

/-- C1 (counterexample): with the 800×600 output bound and the delta
sequence (−100,0), (50,0) from the initial location, the code ends at
(50,0), while clamping the summed deltas gives (0,0) — the code clamps
after each delta, not once over the sum. -/
theorem C1_clamp_of_sum_counterexample :
    (s800.processEvents [] [.PointerMotion ⟨-100, 0⟩, .PointerMotion ⟨50, 0⟩]).map
        (fun s => s.pointer_location) = some ⟨50, 0⟩
    ∧ s800.clamp_coords (⟨0, 0⟩ + ⟨-100, 0⟩ + ⟨50, 0⟩) = ⟨0, 0⟩
    ∧ ((⟨50, 0⟩ : Pt) = ⟨0, 0⟩ → False) := by
  refine ⟨?_, ?_, ?_⟩
  · norm_num [MState.processEvents, MState.process_input_event, MState.clamp_coords,
      clampCoords, qmin, qmax, MState.set_input_focus_auto, MState.surface_under,
      Workspaces.window_under, s800, ws800, geo800, MState.new, List.find?]
  · norm_num [MState.clamp_coords, clampCoords, qmin, qmax, s800, ws800, geo800,
      MState.new]
  · intro h
    simpa using congrArg Pt.x h

/-- C1 (amended): for every sequence of relative deltas with an output
bound, starting from (0,0), the final pointer location is the left fold
of clamp-after-each-delta over the sequence (clamp applied to every
intermediate position, not once to the sum of the deltas). -/
theorem C1_relative_motion_fold (kb : List (Binding × Action)) (s : MState)
    (geo : Rect) (hgeo : s.workspaces.outputGeo = some geo)
    (hstart : s.pointer_location = ⟨0, 0⟩) (deltas : List Pt) :
    ∃ s', s.processEvents kb (deltas.map .PointerMotion) = some s'
      ∧ s'.pointer_location =
          deltas.foldl (fun p d => clampCoords (some geo) (p + d)) ⟨0, 0⟩ := by
  obtain ⟨s', h, hp, _⟩ := processEvents_motions kb s deltas
  rw [hgeo, hstart] at hp
  exact ⟨s', h, hp⟩

theorem C1_relative_motion_fold_witness :
    ∃ s', s800.processEvents []
        ([⟨-100, 0⟩, ⟨50, 0⟩].map InputEvent.PointerMotion) = some s'
      ∧ s'.pointer_location =
          [⟨-100, 0⟩, (⟨50, 0⟩ : Pt)].foldl
            (fun p d => clampCoords (some geo800) (p + d)) ⟨0, 0⟩ :=
  C1_relative_motion_fold [] s800 geo800 rfl rfl [⟨-100, 0⟩, ⟨50, 0⟩]

/-- C2: `clamp_coords` is the identity when no output is bound to the
active workspace; otherwise it clamps each coordinate independently to
[0, output size]; the scenario with pointer (50,50), output 800×600 and
delta (−100,−10) ends at (0,40). -/
theorem C2_clamp_coords_spec :
    (∀ s : MState, s.workspaces.outputGeo = none →
        ∀ pos, s.clamp_coords pos = pos)
    ∧ (∀ (s : MState) (geo : Rect), s.workspaces.outputGeo = some geo →
        ∀ pos : Pt, s.clamp_coords pos
          = ⟨min (max pos.x 0) geo.sz.w, min (max pos.y 0) geo.sz.h⟩)
    ∧ (∃ s', s50.process_input_event [] (.PointerMotion ⟨-100, -10⟩) = some s'
        ∧ s'.pointer_location = ⟨0, 40⟩) := by
  refine ⟨?_, ?_, ?_⟩
  · intro s h pos
    simp [MState.clamp_coords, clampCoords, h]
  · intro s geo h pos
    simp [MState.clamp_coords, clampCoords, h, qmax_eq_max, qmin_eq_min]
  · refine ⟨_, rfl, ?_⟩
    norm_num [MState.process_input_event, MState.clamp_coords, clampCoords, qmin,
      qmax, MState.set_input_focus_auto, MState.surface_under,
      Workspaces.window_under, s50, s800, ws800, geo800, MState.new, List.find?]

theorem C2_clamp_coords_spec_witness :
    ({ s800 with workspaces := ⟨1, [], none⟩ } : MState).clamp_coords ⟨-5, 700⟩
        = ⟨-5, 700⟩
    ∧ s800.clamp_coords ⟨-50, 40⟩
        = ⟨min (max (-50 : ℚ) 0) geo800.sz.w, min (max (40 : ℚ) 0) geo800.sz.h⟩ :=
  ⟨C2_clamp_coords_spec.1 _ rfl _, C2_clamp_coords_spec.2.1 s800 geo800 rfl _⟩

/-- C3: on a press, the interceptor returns Intercept of the first
binding (in table order) whose modifier set equals the active modifiers
exactly and whose key lies in the resolved symbol set, and Forward when
no binding matches — in particular on the empty table. -/
theorem C3_first_match (table : List (Binding × Action))
    (modifiers : ModifiersState) (rawSyms : List Keysym) :
    keyboardFilter table .Pressed modifiers rawSyms =
      ((table.find? (bindingMatches modifiers rawSyms)).map
        (fun ba => FilterResult.Intercept ba.2)).getD .Forward
    ∧ keyboardFilter [] .Pressed modifiers rawSyms = .Forward :=
  ⟨keyboardFilter_pressed_find table modifiers rawSyms, rfl⟩

/-- C4: a release always forwards, whatever the table and modifier
state; a press whose first matching binding is (b, a) intercepts with a,
and a press matching any binding of the table intercepts. -/
theorem C4_press_only (table : List (Binding × Action))
    (modifiers : ModifiersState) (rawSyms : List Keysym) :
    keyboardFilter table .Released modifiers rawSyms = .Forward
    ∧ (∀ (b : Binding) (a : Action),
        table.find? (bindingMatches modifiers rawSyms) = some (b, a) →
        keyboardFilter table .Pressed modifiers rawSyms = .Intercept a)
    ∧ (∀ (b : Binding) (a : Action), (b, a) ∈ table →
        b.modifiers = modifiers → b.key ∈ rawSyms →
        ∃ a', keyboardFilter table .Pressed modifiers rawSyms = .Intercept a') := by
  refine ⟨keyboardFilter_released _ _ _, ?_, ?_⟩
  · intro b a h
    rw [keyboardFilter_pressed_find, h]
    rfl
  · intro b a hmem hmod hkey
    have hsome : (table.find? (bindingMatches modifiers rawSyms)).isSome := by
      rw [List.find?_isSome]
      exact ⟨(b, a), hmem, by simp [bindingMatches, hmod, hkey]⟩
    obtain ⟨ba, hba⟩ := Option.isSome_iff_exists.mp hsome
    exact ⟨ba.2, by rw [keyboardFilter_pressed_find, hba]; rfl⟩

theorem C4_press_only_witness :
    keyboardFilter [(⟨modsC, 10⟩, .Quit)] .Released modsC [10] = .Forward
    ∧ keyboardFilter [(⟨modsC, 10⟩, .Quit)] .Pressed modsC [10] = .Intercept .Quit
    ∧ (∃ a', keyboardFilter [(⟨modsC, 10⟩, .Quit)] .Pressed modsC [10]
        = .Intercept a') :=
  ⟨(C4_press_only [(⟨modsC, 10⟩, .Quit)] modsC [10]).1,
   (C4_press_only [(⟨modsC, 10⟩, .Quit)] modsC [10]).2.1 ⟨modsC, 10⟩ .Quit
     (by decide),
   (C4_press_only [(⟨modsC, 10⟩, .Quit)] modsC [10]).2.2 ⟨modsC, 10⟩ .Quit
     (by decide) rfl (by decide)⟩

/-- C5 (counterexample): with the current workspace's output located at
(10,10), the pointer after a relative motion to (5,5) is stored at
(5,5), which is outside the output's rectangle although an output
exists — `clamp_coords` clamps to [0, size] and ignores the output's
location. -/
theorem C5_rect_counterexample :
    (MState.new ws10).workspaces.outputGeo = some rect10
    ∧ ((MState.new ws10).process_input_event [] (.PointerMotion ⟨5, 5⟩)).map
        (fun s => s.pointer_location) = some ⟨5, 5⟩
    ∧ ¬ rect10.containsPt (⟨5, 5⟩ : Pt) := by
  refine ⟨rfl, ?_, ?_⟩
  · norm_num [MState.process_input_event, MState.clamp_coords, clampCoords, qmin,
      qmax, MState.set_input_focus_auto, MState.surface_under,
      Workspaces.window_under, ws10, rect10, MState.new, List.find?]
  · norm_num [Rect.containsPt, rect10]

/-- C5 (amended): the stored pointer location starts at (0,0) at process
start and, whenever an output with nonnegative size exists, lies inside
the origin-anchored box [0, output size] after every pointer-affecting
event (relative or absolute motion); this box is the output's rectangle
translated to the origin and coincides with it only when the output is
located at the origin. -/
theorem C5_pointer_in_output_box (kb : List (Binding × Action)) (s : MState)
    (geo : Rect) (hgeo : s.workspaces.outputGeo = some geo)
    (hw : 0 ≤ geo.sz.w) (hh : 0 ≤ geo.sz.h) :
    (∀ ws : Workspaces, (MState.new ws).pointer_location = ⟨0, 0⟩)
    ∧ (∀ (d : Pt) (s' : MState),
        s.process_input_event kb (.PointerMotion d) = some s' →
        inBox s'.pointer_location geo.sz)
    ∧ (∀ (norm : Pt) (s' : MState),
        s.process_input_event kb (.PointerMotionAbsolute norm) = some s' →
        inBox s'.pointer_location geo.sz) := by
  refine ⟨fun ws => rfl, ?_, ?_⟩
  · intro d s' h
    obtain ⟨s1, h1, hp, _⟩ := pointerMotion_step kb s d
    rw [h1, Option.some_inj] at h
    subst h
    rw [hp, hgeo]
    exact inBox_clampCoords geo _ hw hh
  · intro norm s' h
    obtain ⟨s1, h1, hp, _, _⟩ := absoluteMotion_step kb s geo hgeo norm
    rw [h1, Option.some_inj] at h
    subst h
    rw [hp]
    exact inBox_clampCoords geo _ hw hh

theorem C5_pointer_in_output_box_witness :
    ∃ s' : MState, s800.process_input_event [] (.PointerMotion ⟨5000, -3⟩) = some s'
      ∧ inBox s'.pointer_location geo800.sz := by
  obtain ⟨s1, h1, _, _⟩ := pointerMotion_step [] s800 ⟨5000, -3⟩
  exact ⟨s1, h1,
    (C5_pointer_in_output_box [] s800 geo800 rfl (by norm_num [geo800])
      (by norm_num [geo800])).2.1 ⟨5000, -3⟩ s1 h1⟩

/-- C6: on an absolute motion with an output bound, the stored pointer
location is the clamp of the transformed position (device position
scaled by the output size plus the output origin), while the emitted
motion notification carries the unclamped transformed position; the two
agree exactly when the transformed position lies in [0, output size]. -/
theorem C6_absolute_motion_emit (kb : List (Binding × Action)) (s : MState)
    (geo : Rect) (hgeo : s.workspaces.outputGeo = some geo)
    (hw : 0 ≤ geo.sz.w) (hh : 0 ≤ geo.sz.h) (norm : Pt) :
    ∃ s' pos,
      pos = (⟨norm.x * geo.sz.w + geo.loc.x, norm.y * geo.sz.h + geo.loc.y⟩ : Pt)
      ∧ s.process_input_event kb (.PointerMotionAbsolute norm) = some s'
      ∧ s'.pointer_location = clampCoords (some geo) pos
      ∧ s'.emittedMotions = s.emittedMotions ++ [pos]
      ∧ (s'.pointer_location = pos ↔ inBox pos geo.sz) := by
  obtain ⟨s', h1, h2, h3, _⟩ := absoluteMotion_step kb s geo hgeo norm
  refine ⟨s', _, rfl, h1, h2, h3, ?_⟩
  rw [h2]
  exact clampCoords_eq_self geo _ hw hh

theorem C6_absolute_motion_emit_witness :
    ∃ s' pos,
      pos = (⟨(3 : ℚ)/2 * geo800.sz.w + geo800.loc.x,
              (1 : ℚ)/2 * geo800.sz.h + geo800.loc.y⟩ : Pt)
      ∧ s800.process_input_event [] (.PointerMotionAbsolute ⟨3/2, 1/2⟩) = some s'
      ∧ s'.pointer_location = clampCoords (some geo800) pos
      ∧ s'.emittedMotions = s800.emittedMotions ++ [pos]
      ∧ (s'.pointer_location = pos ↔ inBox pos geo800.sz) :=
  C6_absolute_motion_emit [] s800 geo800 rfl (by norm_num [geo800])
    (by norm_num [geo800]) ⟨3/2, 1/2⟩

/-- C7: per scroll axis, the continuous amount is preferred, else
discrete × 3, else 0; a nonzero amount is put in the frame together
with the discrete count when present; a zero amount yields a stop
signal for that axis exactly when the source is Finger, and nothing
otherwise; both axes end up in the single frame that the event
dispatches. -/
theorem C7_axis_frame (ev : AxisEvent) :
    (∀ q : ℚ, ev.amountH = some q → q ≠ 0 →
      (processAxis ev).valueH = some q
      ∧ (processAxis ev).discreteH = ev.amountDiscreteH.map truncQ
      ∧ (processAxis ev).stopH = false)
    ∧ (∀ d : ℚ, ev.amountH = none → ev.amountDiscreteH = some d → d * 3 ≠ 0 →
      (processAxis ev).valueH = some (d * 3)
      ∧ (processAxis ev).discreteH = some (truncQ d)
      ∧ (processAxis ev).stopH = false)
    ∧ (ev.amountH.getD (ev.amountDiscreteH.getD 0 * 3) = 0 → ev.source = .Finger →
      (processAxis ev).valueH = none ∧ (processAxis ev).discreteH = none
      ∧ (processAxis ev).stopH = true)
    ∧ (ev.amountH.getD (ev.amountDiscreteH.getD 0 * 3) = 0 → ev.source ≠ .Finger →
      (processAxis ev).valueH = none ∧ (processAxis ev).discreteH = none
      ∧ (processAxis ev).stopH = false)
    ∧ (∀ q : ℚ, ev.amountV = some q → q ≠ 0 →
      (processAxis ev).valueV = some q
      ∧ (processAxis ev).discreteV = ev.amountDiscreteV.map truncQ
      ∧ (processAxis ev).stopV = false)
    ∧ (∀ d : ℚ, ev.amountV = none → ev.amountDiscreteV = some d → d * 3 ≠ 0 →
      (processAxis ev).valueV = some (d * 3)
      ∧ (processAxis ev).discreteV = some (truncQ d)
      ∧ (processAxis ev).stopV = false)
    ∧ (ev.amountV.getD (ev.amountDiscreteV.getD 0 * 3) = 0 → ev.source = .Finger →
      (processAxis ev).valueV = none ∧ (processAxis ev).discreteV = none
      ∧ (processAxis ev).stopV = true)
    ∧ (ev.amountV.getD (ev.amountDiscreteV.getD 0 * 3) = 0 → ev.source ≠ .Finger →
      (processAxis ev).valueV = none ∧ (processAxis ev).discreteV = none
      ∧ (processAxis ev).stopV = false)
    ∧ (∀ (kb : List (Binding × Action)) (s : MState),
      ∃ s', s.process_input_event kb (.PointerAxis ev) = some s'
        ∧ s'.axisFrames = s.axisFrames ++ [processAxis ev]) := by
  obtain ⟨aH, aV, dH, dV, src⟩ := ev
  refine ⟨?_, ?_, ?_, ?_, ?_, ?_, ?_, ?_, ?_⟩
  · intro q hq hq0
    subst hq
    simp only [processAxis]
    split_ifs <;> simp_all
  · intro d hn hd hd0
    subst hn; subst hd
    simp only [processAxis]
    split_ifs <;> simp_all
  · intro h0 hsrc
    subst hsrc
    simp only [processAxis] at h0 ⊢
    split_ifs <;> simp_all
  · intro h0 hsrc
    simp only [processAxis] at h0 ⊢
    split_ifs <;> simp_all
  · intro q hq hq0
    subst hq
    simp only [processAxis]
    split_ifs <;> simp_all
  · intro d hn hd hd0
    subst hn; subst hd
    simp only [processAxis]
    split_ifs <;> simp_all
  · intro h0 hsrc
    subst hsrc
    simp only [processAxis] at h0 ⊢
    split_ifs <;> simp_all
  · intro h0 hsrc
    simp only [processAxis] at h0 ⊢
    split_ifs <;> simp_all
  · intro kb s
    exact ⟨_, rfl, rfl⟩

theorem C7_axis_frame_witness :
    ((processAxis ⟨some 5, some 7, some 2, some 3, .Wheel⟩).valueH = some 5
      ∧ (processAxis ⟨some 5, some 7, some 2, some 3, .Wheel⟩).discreteH
          = (some (2 : ℚ)).map truncQ
      ∧ (processAxis ⟨some 5, some 7, some 2, some 3, .Wheel⟩).stopH = false)
    ∧ ((processAxis ⟨none, none, some 2, some 3, .Wheel⟩).valueH = some (2 * 3)
      ∧ (processAxis ⟨none, none, some 2, some 3, .Wheel⟩).discreteH
          = some (truncQ 2)
      ∧ (processAxis ⟨none, none, some 2, some 3, .Wheel⟩).stopH = false)
    ∧ ((processAxis ⟨some 0, some 0, none, none, .Finger⟩).valueH = none
      ∧ (processAxis ⟨some 0, some 0, none, none, .Finger⟩).discreteH = none
      ∧ (processAxis ⟨some 0, some 0, none, none, .Finger⟩).stopH = true)
    ∧ ((processAxis ⟨some 0, some 0, none, none, .Wheel⟩).valueV = none
      ∧ (processAxis ⟨some 0, some 0, none, none, .Wheel⟩).discreteV = none
      ∧ (processAxis ⟨some 0, some 0, none, none, .Wheel⟩).stopV = false)
    ∧ (∃ s', s800.process_input_event []
          (.PointerAxis ⟨some 5, some 7, some 2, some 3, .Wheel⟩) = some s'
        ∧ s'.axisFrames = s800.axisFrames
            ++ [processAxis ⟨some 5, some 7, some 2, some 3, .Wheel⟩]) :=
  ⟨(C7_axis_frame ⟨some 5, some 7, some 2, some 3, .Wheel⟩).1 5 rfl
     (by norm_num),
   (C7_axis_frame ⟨none, none, some 2, some 3, .Wheel⟩).2.1 2 rfl rfl
     (by norm_num),
   (C7_axis_frame ⟨some 0, some 0, none, none, .Finger⟩).2.2.1 rfl rfl,
   (C7_axis_frame ⟨some 0, some 0, none, none, .Wheel⟩).2.2.2.2.2.2.2.1 rfl
     (by simp),
   (C7_axis_frame ⟨some 5, some 7, some 2, some 3, .Wheel⟩).2.2.2.2.2.2.2.2
     [] s800⟩

/-- C8: MoveAndSwitch(id) is exactly MoveWindow(id) followed by
Workspace(id); when a window is under the pointer, the end state gives
that window workspace membership id and makes id the active
workspace. -/
theorem C8_move_and_switch (s : MState) (id : Nat) :
    s.handle_action (.MoveAndSwitch id)
      = (s.handle_action (.MoveWindow id)).bind
          (fun s1 => s1.handle_action (.Workspace id))
    ∧ (∀ w : Win, s.workspaces.window_under s.pointer_location = some w →
        ∃ s', s.handle_action (.MoveAndSwitch id) = some s'
          ∧ s'.workspaces.active = id
          ∧ ∀ w' ∈ s'.workspaces.windows, w'.id = w.id → w'.workspace = id) := by
  constructor
  · cases h : s.workspaces.window_under s.pointer_location <;>
      simp [MState.handle_action, h]
  · intro w hw
    have hfin : s.handle_action (.MoveAndSwitch id)
        = some (MState.set_input_focus_auto
            { s with workspaces :=
                (s.workspaces.move_window_to_workspace w id).activate id }) := by
      simp [MState.handle_action, hw, Workspaces.activate,
        Workspaces.move_window_to_workspace]
    refine ⟨_, hfin, ?_, ?_⟩
    · rw [set_input_focus_auto_workspaces]
      rfl
    · intro w' hw' hid
      rw [set_input_focus_auto_workspaces] at hw'
      simp only [Workspaces.activate, Workspaces.move_window_to_workspace,
        List.mem_map] at hw'
      obtain ⟨u, hu, rfl⟩ := hw'
      by_cases huid : u.id = w.id
      · simp [huid]
      · rw [if_neg huid] at hid ⊢
        exact absurd hid huid

theorem C8_move_and_switch_witness :
    ∃ s', sWin.handle_action (.MoveAndSwitch 2) = some s'
      ∧ s'.workspaces.active = 2
      ∧ ∀ w' ∈ s'.workspaces.windows, w'.id = win7.id → w'.workspace = 2 :=
  (C8_move_and_switch sWin 2).2 win7
    (by norm_num [Workspaces.window_under, List.find?, Rect.containsPt, win7,
      wsWin, sWin, MState.new])

/-- C9: Close and MoveWindow with no window under the pointer are normal
no-ops: no panic, and the state is returned unchanged. -/
theorem C9_noop (s : MState) (id : Nat)
    (h : s.workspaces.window_under s.pointer_location = none) :
    s.handle_action .Close = some s
    ∧ s.handle_action (.MoveWindow id) = some s := by
  constructor <;> simp [MState.handle_action, h]

theorem C9_noop_witness :
    s800.handle_action .Close = some s800
    ∧ s800.handle_action (.MoveWindow 3) = some s800 :=
  C9_noop s800 3 rfl

/-- C10: auto-focus queries the surface under the current pointer
location; when one is found, keyboard focus is set to its owner with a
fresh serial; when none is found the state — in particular the keyboard
focus — is left unchanged, never cleared. -/
theorem C10_auto_focus (s : MState) :
    (∀ d : FocusTarget × Pt, s.surface_under = some d →
        s.set_input_focus_auto
          = { s with keyboardFocus := some d.1, serial := s.serial + 1 })
    ∧ (s.surface_under = none → s.set_input_focus_auto = s) := by
  constructor
  · intro d h
    simp [MState.set_input_focus_auto, h, MState.set_input_focus]
  · intro h
    simp [MState.set_input_focus_auto, h]

theorem C10_auto_focus_witness :
    sWin.set_input_focus_auto
        = { sWin with keyboardFocus := some (⟨7⟩ : FocusTarget),
                      serial := sWin.serial + 1 }
    ∧ s800.set_input_focus_auto = s800 :=
  ⟨(C10_auto_focus sWin).1 (⟨7⟩, ⟨0, 0⟩)
     (by norm_num [MState.surface_under, Workspaces.window_under, List.find?,
       Rect.containsPt, win7, wsWin, sWin, MState.new]),
   (C10_auto_focus s800).2 rfl⟩

end Magma
